import Mathlib

/-!
Shallow embedding of the `mstr` crate (`src/lib.rs`): `MStr` is a two-word,
immutable version of `Cow<str>`, with the ownership discriminant packed into
the high bit of the length word.

Memory model used by the embedding:
* addresses are natural numbers; memory is immutable (the crate never writes);
* the allocator is a counter `n : Nat`: every address handed out so far is
  `< n`, and a fresh heap allocation takes address `n` and bumps the counter,
  so a fresh address is distinct from every previously valid address;
* a `&str` / `Box<str>` buffer is modelled as `StrRef`: its start address
  together with the bytes stored there;
* operations of the crate that may allocate are state-passing functions
  `... → Nat → Result × Nat`; operations that provably never allocate are
  pure functions (they do not touch the counter at all).

Machine integers: `usize` is modelled as `Nat`; the crate's bit manipulation
(`|`, `&`) is translated to `Nat.lor` / `Nat.land`, with the word width of
the modelled target fixed at 64 bits.
-/

/-- Rust `usize::BITS` on the modelled 64-bit target. -/
def WORD : Nat := 64

/-- Rust `const TAG: usize = 1 << (usize::BITS - 1);` — the high bit of `usize`.
If set, the `MStr` is owned; if clear, it is borrowed. -/
def TAG : Nat := 1 <<< (WORD - 1)

/-- Rust `const MASK: usize = !TAG;` — every bit except the tag bit.  Within a
`WORD`-bit word, the complement of `1 << (WORD-1)` is `2^(WORD-1) - 1`. -/
def MASK : Nat := TAG - 1

/-- The byte content of a `str` (valid UTF-8 by contract; never re-validated). -/
abbrev Bytes := List Nat

/-- A `&str` (equally a `Box<str>` buffer): start address plus the bytes
stored at that address. -/
structure StrRef where
  ptr : Nat
  data : Bytes
deriving Repr, DecidableEq

/-- The `MStr` struct: a raw pointer and the packed length word `len`
(called `plen` here because `len` is the crate's accessor name).  The ghost
field `mem` records the bytes in memory starting at `ptr`. -/
structure MStr where
  ptr : Nat
  plen : Nat
  mem : Bytes
deriving Repr, DecidableEq

/-- Rust `MStr::_new(ptr, len, tag)`: stores the pointer and packs the tag into
the length word: `len: if tag { len | TAG } else { len }`. -/
def MStr._new (ptr : Nat) (len : Nat) (tag : Bool) (mem : Bytes) : MStr :=
  { ptr := ptr, plen := if tag then len ||| TAG else len, mem := mem }

/-- Rust `MStr::new_borrowed(s)`: `MStr::_new(s.as_ptr(), s.len(), false)`.
Pure: performs no allocation and no copy. -/
def MStr.new_borrowed (s : StrRef) : MStr :=
  MStr._new s.ptr s.data.length false s.data

/-- A fresh heap allocation holding bytes `b`: takes the next address and
bumps the allocator counter. -/
def allocBytes (b : Bytes) (n : Nat) : StrRef × Nat :=
  (⟨n, b⟩, n + 1)

/-- A value of `impl Into<Box<str>>` as accepted by `new_owned`:
a `Box<str>` (always exact capacity), a `String` (buffer plus capacity),
or a `&str` slice. -/
inductive BoxSource where
  | boxed (b : StrRef)
  | string (s : StrRef) (cap : Nat)
  | slice (s : StrRef)
deriving Repr, DecidableEq

/-- Rust `Into::<Box<str>>::into`: a `Box<str>` is reused verbatim; a `String`
with no excess capacity is reused verbatim, otherwise it reallocates to
exact fit; a `&str` is copied to a fresh heap allocation. -/
def BoxSource.into : BoxSource → Nat → StrRef × Nat
  | .boxed b, n => (b, n)
  | .string s cap, n => if cap = s.data.length then (s, n) else allocBytes s.data n
  | .slice s, n => allocBytes s.data n

/-- The byte content of a `new_owned` source. -/
def BoxSource.data : BoxSource → Bytes
  | .boxed b => b.data
  | .string s _ => s.data
  | .slice s => s.data

/-- Rust `MStr::new_owned(s)`: `let s = s.into(); MStr::_new(Box::into_raw(s), len, true)`. -/
def MStr.new_owned (src : BoxSource) (n : Nat) : MStr × Nat :=
  let r := src.into n
  (MStr._new r.1.ptr r.1.data.length true r.1.data, r.2)

/-- Rust `Cow<'a, str>`: either a borrowed `&str`, or an owned `String`
(buffer plus its capacity). -/
inductive Cow where
  | borrowed (s : StrRef)
  | owned (s : StrRef) (cap : Nat)
deriving Repr, DecidableEq

/-- Rust `MStr::new_cow(s)`: dispatches on the cow, `Cow::Borrowed → new_borrowed`,
`Cow::Owned → new_owned`. -/
def MStr.new_cow (c : Cow) (n : Nat) : MStr × Nat :=
  match c with
  | .borrowed s => (MStr.new_borrowed s, n)
  | .owned s cap => MStr.new_owned (.string s cap) n

-- -- Accessors --

/-- Rust `MStr::is_owned`: `self.len & TAG == TAG`. -/
def MStr.is_owned (m : MStr) : Bool := m.plen &&& TAG == TAG

/-- Rust `MStr::is_borrowed`: `self.len & TAG == 0`. -/
def MStr.is_borrowed (m : MStr) : Bool := m.plen &&& TAG == 0

/-- Rust `MStr::len`: `self.len & MASK` — the byte length with the tag masked out. -/
def MStr.len (m : MStr) : Nat := m.plen &&& MASK

/-- Rust `MStr::is_empty`: `self.len() == 0`. -/
def MStr.is_empty (m : MStr) : Bool := m.len == 0

/-- Rust `MStr::as_ptr`: the stored raw pointer. -/
def MStr.as_ptr (m : MStr) : Nat := m.ptr

/-- Rust `MStr::as_str` (via `as_str_ptr`): the `&str` view over
`(ptr, len())` — the first `len()` bytes of the memory at `ptr`. -/
def MStr.as_str (m : MStr) : StrRef := ⟨m.ptr, m.mem.take m.len⟩

/-- Rust `MStr::into_cow`: when owned, rebuilds the `Box<str>` from
`(ptr, len())` and converts it to a `String` (whose capacity equals its
length); when borrowed, returns the borrowed view.  Pure: never allocates. -/
def MStr.into_cow (m : MStr) : Cow :=
  if m.is_owned then .owned m.as_str m.len else .borrowed m.as_str

/-- Rust `Cow::into_owned`: a borrowed view is cloned into a fresh `String`
(allocation plus byte copy); an owned `String` is returned as-is. -/
def Cow.into_owned : Cow → Nat → StrRef × Nat
  | .borrowed s, n => allocBytes s.data n
  | .owned s _, n => (s, n)

/-- Rust `MStr::into_string`: `self.into_cow().into_owned()`. -/
def MStr.into_string (m : MStr) (n : Nat) : StrRef × Nat :=
  m.into_cow.into_owned n

/-- Rust `NonNull::<u8>::dangling()`: a well-aligned non-null address
(`align_of::<u8>() == 1`). -/
def danglingPtr : Nat := 1

/-- Rust `Default for MStr`: `MStr::_new(NonNull::dangling(), 0, false)` — an
empty borrowed string; the dangling pointer is never read (length 0). -/
def MStr.mkDefault : MStr := MStr._new danglingPtr 0 false []

/-- Rust `Clone for MStr`: borrowed → `MStr::_new(self.as_ptr(), self.len(), false)`
over the same memory, no allocation; owned → `MStr::new_owned(self.as_str())`,
a fresh allocation plus byte copy. -/
def MStr.clone (m : MStr) (n : Nat) : MStr × Nat :=
  if m.is_borrowed then (MStr._new m.as_ptr m.len false m.mem, n)
  else MStr.new_owned (.slice m.as_str) n

-- -- Comparison / hash / format capability surface --

/-- Rust `PartialEq for MStr`: `self.as_str() == other.as_str()` (str equality is
byte-content equality). -/
def MStr.eq (a b : MStr) : Bool := a.as_str.data == b.as_str.data

/-- Rust `PartialEq<str> for MStr`: `self.as_str() == other`. -/
def MStr.eq_str (m : MStr) (s : StrRef) : Bool := m.as_str.data == s.data

/-- Rust `PartialEq<MStr> for str`: `self == other.as_str()`. -/
def str_eq_mstr (s : StrRef) (m : MStr) : Bool := s.data == m.as_str.data

/-- Rust `PartialEq<String> for MStr`: `self.as_str() == other` (a `String`
compares by its content; its capacity does not participate). -/
def MStr.eq_string (m : MStr) (s : StrRef) (_cap : Nat) : Bool :=
  m.as_str.data == s.data

/-- Rust `PartialEq<Box<str>> for MStr`: `self.as_str() == &**other`. -/
def MStr.eq_boxed (m : MStr) (s : StrRef) : Bool := m.as_str.data == s.data

/-- Rust `Ord for [u8]` / `Ord for str`: lexicographic byte order. -/
def cmpBytes : Bytes → Bytes → Ordering
  | [], [] => .eq
  | [], _ :: _ => .lt
  | _ :: _, [] => .gt
  | x :: xs, y :: ys =>
    match compare x y with
    | .eq => cmpBytes xs ys
    | o => o

/-- Rust `Ord for MStr`: `self.as_str().cmp(other.as_str())`. -/
def MStr.cmp (a b : MStr) : Ordering := cmpBytes a.as_str.data b.as_str.data

/-- Rust `PartialOrd for MStr`: `Some(self.cmp(other))`. -/
def MStr.pcmp (a b : MStr) : Option Ordering := some (a.cmp b)

/-- Rust `PartialOrd<str> for MStr`: `self.as_str().partial_cmp(other)`
(`str`'s comparison is total, so it is `Some` of the byte-lexicographic
comparison). -/
def MStr.pcmp_str (m : MStr) (s : StrRef) : Option Ordering :=
  some (cmpBytes m.as_str.data s.data)

/-- Rust `PartialOrd<MStr> for str`: `self.partial_cmp(other.as_str())`. -/
def str_pcmp_mstr (s : StrRef) (m : MStr) : Option Ordering :=
  some (cmpBytes s.data m.as_str.data)

/-- Rust `Hash for MStr`: delegates to `str`'s hash of `as_str()`; the hasher is
abstracted as a function of the byte content. -/
def MStr.hashWith (h : Bytes → Nat) (m : MStr) : Nat := h m.as_str.data

/-- Rust `Debug for MStr`: `Debug::fmt(self.as_str(), f)`; `str`'s `Debug`
rendering is abstracted as a function of the byte content. -/
def MStr.debug_fmt (fmtDebugStr : Bytes → List Nat) (m : MStr) : List Nat :=
  fmtDebugStr m.as_str.data

/-- Rust `Display for MStr`: `Display::fmt(self.as_str(), f)`; `str`'s `Display`
rendering is abstracted as a function of the byte content. -/
def MStr.display_fmt (fmtDisplayStr : Bytes → List Nat) (m : MStr) : List Nat :=
  fmtDisplayStr m.as_str.data

-- -- serde adapter --

/-- Rust `MStrVisitor::visit_str`: `Ok(MStr::new_owned(s))` with `s: &str`. -/
def MStrVisitor.visit_str (s : StrRef) (n : Nat) : MStr × Nat :=
  MStr.new_owned (.slice s) n

/-- Rust `MStrVisitor::visit_string`: `Ok(MStr::new_owned(s))` with `s: String`. -/
def MStrVisitor.visit_string (s : StrRef) (cap : Nat) (n : Nat) : MStr × Nat :=
  MStr.new_owned (.string s cap) n

/-- What `deserialize_string` hands the visitor: either a `&str`
(possibly borrowed from the decoder's own buffer) or an owned `String`. -/
inductive DecodedStr where
  | str (s : StrRef)
  | string (s : StrRef) (cap : Nat)
deriving Repr, DecidableEq

/-- Rust `Deserialize for MStr`: `d.deserialize_string(MStrVisitor)` — the
deserializer calls `visit_str` or `visit_string` on the decoded text. -/
def MStr.deserialize (d : DecodedStr) (n : Nat) : MStr × Nat :=
  match d with
  | .str s => MStrVisitor.visit_str s n
  | .string s cap => MStrVisitor.visit_string s cap n

/-- The representation invariant every constructor establishes: the true
byte length is below `TAG` (Rust allocations are below `isize::MAX` bytes)
and the length stored in the packed word matches the bytes at `ptr`. -/
def MStr.WF (m : MStr) : Prop :=
  m.mem.length < TAG ∧ m.plen &&& MASK = m.mem.length

-- ===== Bit-packing lemmas =====

theorem TAG_eq : TAG = 2 ^ 63 := by
  unfold TAG WORD
  rw [Nat.shiftLeft_eq, one_mul]

theorem MASK_eq : MASK = 2 ^ 63 - 1 := by
  unfold MASK
  rw [TAG_eq]

theorem and_mask_of_lt {a : Nat} (h : a < TAG) : a &&& MASK = a := by
  rw [MASK_eq]
  rw [TAG_eq] at h
  exact Nat.and_pow_two_sub_one_of_lt_two_pow h

theorem and_tag_of_lt {a : Nat} (h : a < TAG) : a &&& TAG = 0 := by
  rw [TAG_eq] at h ⊢
  apply Nat.eq_of_testBit_eq
  intro i
  rw [Nat.testBit_and, Nat.zero_testBit]
  rcases eq_or_ne i 63 with rfl | hne
  · rw [Nat.testBit_lt_two_pow h, Bool.false_and]
  · rw [Nat.testBit_two_pow_of_ne (Ne.symm hne), Bool.and_false]

theorem lor_tag_and_tag (a : Nat) : (a ||| TAG) &&& TAG = TAG := by
  rw [TAG_eq]
  apply Nat.eq_of_testBit_eq
  intro i
  rw [Nat.testBit_and, Nat.testBit_or]
  rcases eq_or_ne i 63 with rfl | hne
  · rw [Nat.testBit_two_pow_self, Bool.or_true, Bool.true_and]
  · rw [Nat.testBit_two_pow_of_ne (Ne.symm hne), Bool.or_false, Bool.and_false]

theorem lor_tag_and_mask {a : Nat} (h : a < TAG) : (a ||| TAG) &&& MASK = a := by
  rw [MASK_eq, TAG_eq]
  rw [TAG_eq] at h
  apply Nat.eq_of_testBit_eq
  intro i
  rw [Nat.testBit_and, Nat.testBit_or, Nat.testBit_two_pow_sub_one]
  rcases Nat.lt_or_ge i 63 with hlt | hge
  · rw [Nat.testBit_two_pow_of_ne (by omega), Bool.or_false, decide_eq_true hlt,
      Bool.and_true]
  · have hlt2 : a < 2 ^ i :=
      lt_of_lt_of_le h (Nat.pow_le_pow_right (by norm_num) hge)
    rw [Nat.testBit_lt_two_pow hlt2, decide_eq_false (by omega), Bool.and_false]

theorem and_tag_eq_ite (a : Nat) : a &&& TAG = if a.testBit 63 then TAG else 0 := by
  rw [TAG_eq]
  apply Nat.eq_of_testBit_eq
  intro i
  rw [Nat.testBit_and]
  rcases eq_or_ne i 63 with rfl | hne
  · cases h : a.testBit 63 <;>
      simp [h, Nat.testBit_two_pow_self, Nat.zero_testBit]
  · cases h : a.testBit 63 <;>
      simp [Nat.testBit_two_pow_of_ne (Ne.symm hne), Nat.zero_testBit]

theorem TAG_ne_zero : TAG ≠ 0 := by
  rw [TAG_eq]
  positivity

-- ===== Evaluation lemmas for the constructors =====

theorem _new_true_is_owned (p l : Nat) (d : Bytes) :
    (MStr._new p l true d).is_owned = true := by
  simp [MStr._new, MStr.is_owned, lor_tag_and_tag]

theorem _new_true_is_borrowed (p l : Nat) (d : Bytes) :
    (MStr._new p l true d).is_borrowed = false := by
  simp [MStr._new, MStr.is_borrowed, lor_tag_and_tag]
  exact TAG_ne_zero

theorem _new_false_is_borrowed {l : Nat} (p : Nat) (d : Bytes) (h : l < TAG) :
    (MStr._new p l false d).is_borrowed = true := by
  simp [MStr._new, MStr.is_borrowed, and_tag_of_lt h]

theorem _new_false_is_owned {l : Nat} (p : Nat) (d : Bytes) (h : l < TAG) :
    (MStr._new p l false d).is_owned = false := by
  simp [MStr._new, MStr.is_owned, and_tag_of_lt h]
  exact fun h2 => TAG_ne_zero h2.symm

theorem _new_len {l : Nat} (p : Nat) (t : Bool) (d : Bytes) (h : l < TAG) :
    (MStr._new p l t d).len = l := by
  cases t <;> simp [MStr._new, MStr.len, and_mask_of_lt h, lor_tag_and_mask h]

theorem _new_WF (p : Nat) (t : Bool) (d : Bytes) (h : d.length < TAG) :
    (MStr._new p d.length t d).WF := by
  refine ⟨h, ?_⟩
  cases t <;> simp [MStr._new, and_mask_of_lt h, lor_tag_and_mask h]

theorem len_of_WF {m : MStr} (h : m.WF) : m.len = m.mem.length := h.2

theorem as_str_of_WF {m : MStr} (h : m.WF) : m.as_str = ⟨m.ptr, m.mem⟩ := by
  simp [MStr.as_str, MStr.len, h.2, List.take_length]

theorem _new_as_str (p : Nat) (t : Bool) (d : Bytes) (h : d.length < TAG) :
    (MStr._new p d.length t d).as_str = ⟨p, d⟩ :=
  as_str_of_WF (_new_WF p t d h)

theorem is_owned_eq_not_is_borrowed (m : MStr) : m.is_owned = !m.is_borrowed := by
  have hz : ¬(0 = TAG) := fun h2 => TAG_ne_zero h2.symm
  unfold MStr.is_owned MStr.is_borrowed
  rw [and_tag_eq_ite]
  cases h : m.plen.testBit 63 <;> simp [TAG_ne_zero, hz]

theorem is_owned_eq_testBit (m : MStr) : m.is_owned = m.plen.testBit (WORD - 1) := by
  have hz : ¬(0 = TAG) := fun h2 => TAG_ne_zero h2.symm
  unfold MStr.is_owned
  rw [and_tag_eq_ite]
  cases h : m.plen.testBit 63 <;> simp [WORD, h, hz]

-- ===== Lexicographic byte comparison =====

theorem cmpBytes_eq_iff (xs ys : Bytes) : cmpBytes xs ys = .eq ↔ xs = ys := by
  induction xs generalizing ys with
  | nil => cases ys <;> simp [cmpBytes]
  | cons x xs ih =>
    cases ys with
    | nil => simp [cmpBytes]
    | cons y ys =>
      simp only [cmpBytes]
      rcases h : compare x y with h | h | h
      · have hxy : x < y := Nat.compare_eq_lt.mp h
        simp only [List.cons.injEq]
        constructor
        · intro hc; cases hc
        · rintro ⟨rfl, -⟩; omega
      · have hxy : x = y := Nat.compare_eq_eq.mp h
        subst hxy
        simp [ih]
      · have hxy : y < x := Nat.compare_eq_gt.mp h
        simp only [List.cons.injEq]
        constructor
        · intro hc; cases hc
        · rintro ⟨rfl, -⟩; omega

theorem cmpBytes_swap (xs ys : Bytes) : cmpBytes ys xs = (cmpBytes xs ys).swap := by
  induction xs generalizing ys with
  | nil => cases ys <;> simp [cmpBytes, Ordering.swap]
  | cons x xs ih =>
    cases ys with
    | nil => simp [cmpBytes, Ordering.swap]
    | cons y ys =>
      simp only [cmpBytes]
      rcases h : compare x y with h | h | h
      · have hxy : x < y := Nat.compare_eq_lt.mp h
        have hyx : compare y x = .gt := Nat.compare_eq_gt.mpr hxy
        rw [hyx]
        rfl
      · have hxy : x = y := Nat.compare_eq_eq.mp h
        subst hxy
        rw [Nat.compare_eq_eq.mpr rfl]
        exact ih ys
      · have hxy : y < x := Nat.compare_eq_gt.mp h
        have hyx : compare y x = .lt := Nat.compare_eq_lt.mpr hxy
        rw [hyx]
        rfl

theorem cmpBytes_trans {xs ys zs : Bytes} (h1 : cmpBytes xs ys = .lt)
    (h2 : cmpBytes ys zs = .lt) : cmpBytes xs zs = .lt := by
  induction xs generalizing ys zs with
  | nil =>
    cases ys with
    | nil => exact absurd h1 (by simp [cmpBytes])
    | cons y ys =>
      cases zs with
      | nil => exact absurd h2 (by simp [cmpBytes])
      | cons z zs => simp [cmpBytes]
  | cons x xs ih =>
    cases ys with
    | nil => exact absurd h1 (by simp [cmpBytes])
    | cons y ys =>
      cases zs with
      | nil => exact absurd h2 (by simp [cmpBytes])
      | cons z zs =>
        simp only [cmpBytes] at h1 h2 ⊢
        rcases hxy : compare x y with hxy | hxy | hxy <;> rw [hxy] at h1 <;>
          rcases hyz : compare y z with hyz | hyz | hyz <;> rw [hyz] at h2
        · have : x < z :=
            lt_trans (Nat.compare_eq_lt.mp hxy) (Nat.compare_eq_lt.mp hyz)
          rw [Nat.compare_eq_lt.mpr this]
        · have hy : y = z := Nat.compare_eq_eq.mp hyz
          rw [Nat.compare_eq_lt.mpr (hy ▸ Nat.compare_eq_lt.mp hxy)]
        · cases h2
        · have hx : x = y := Nat.compare_eq_eq.mp hxy
          rw [Nat.compare_eq_lt.mpr (hx ▸ Nat.compare_eq_lt.mp hyz)]
        · have hx : x = y := Nat.compare_eq_eq.mp hxy
          have hy : y = z := Nat.compare_eq_eq.mp hyz
          subst hx; subst hy
          rw [Nat.compare_eq_eq.mpr rfl]
          exact ih h1 h2
        · cases h2
        · cases h1
        · cases h1
        · cases h1

theorem TAG_pos : 0 < TAG := by
  rw [TAG_eq]
  positivity

theorem new_owned_boxed (b : StrRef) (n : Nat) :
    MStr.new_owned (.boxed b) n = (MStr._new b.ptr b.data.length true b.data, n) :=
  rfl

theorem new_owned_string_exact {s : StrRef} {cap : Nat} (n : Nat)
    (h : cap = s.data.length) :
    MStr.new_owned (.string s cap) n
      = (MStr._new s.ptr s.data.length true s.data, n) := by
  simp [MStr.new_owned, BoxSource.into, h]

theorem new_owned_slice (s : StrRef) (n : Nat) :
    MStr.new_owned (.slice s) n = (MStr._new n s.data.length true s.data, n + 1) :=
  rfl

theorem into_data (src : BoxSource) (n : Nat) : (src.into n).1.data = src.data := by
  cases src with
  | boxed b => rfl
  | string s cap =>
    by_cases hc : cap = s.data.length <;>
      simp [BoxSource.into, BoxSource.data, hc, allocBytes]
  | slice s => rfl

-- ===== Claims =====

/-- C1: for every string `t` whose byte length is below `2^(WORD-1)`,
`new_borrowed(t)` reports `is_borrowed()` (and not `is_owned()`), its `len()`
equals the byte length of `t`, and its `as_str()` view is byte-identical to
`t` and starts at the same address.  `new_borrowed` is a pure function of the
view (it does not touch the allocator), so no allocation or copy occurs. -/
theorem C1_new_borrowed (t : StrRef) (h : t.data.length < TAG) :
    (MStr.new_borrowed t).is_borrowed = true ∧
    (MStr.new_borrowed t).is_owned = false ∧
    (MStr.new_borrowed t).len = t.data.length ∧
    (MStr.new_borrowed t).as_str = t := by
  refine ⟨_new_false_is_borrowed _ _ h, _new_false_is_owned _ _ h,
    _new_len _ _ _ h, ?_⟩
  exact _new_as_str t.ptr false t.data h

theorem C1_new_borrowed_witness :
    (MStr.new_borrowed ⟨5, [102, 111, 111]⟩).is_borrowed = true ∧
    (MStr.new_borrowed ⟨5, [102, 111, 111]⟩).is_owned = false ∧
    (MStr.new_borrowed ⟨5, [102, 111, 111]⟩).len = 3 ∧
    (MStr.new_borrowed ⟨5, [102, 111, 111]⟩).as_str = ⟨5, [102, 111, 111]⟩ :=
  C1_new_borrowed ⟨5, [102, 111, 111]⟩ (by decide)

/-- C2: `new_owned` on a source that is already an exact-capacity owned
buffer — a `Box<str>`, or a `String` whose capacity equals its length —
returns an owned instance whose start address equals the source's address,
leaving the allocator untouched (the allocation is reused, nothing is
copied); on a `&str` slice it performs exactly one fresh allocation, copies
the bytes, and still reports `is_owned()`, at an address distinct from the
source's. -/
theorem C2_new_owned :
    (∀ (b : StrRef) (n : Nat),
      (MStr.new_owned (.boxed b) n).1.is_owned = true ∧
      (MStr.new_owned (.boxed b) n).1.as_ptr = b.ptr ∧
      (MStr.new_owned (.boxed b) n).2 = n) ∧
    (∀ (s : StrRef) (cap n : Nat), cap = s.data.length →
      (MStr.new_owned (.string s cap) n).1.is_owned = true ∧
      (MStr.new_owned (.string s cap) n).1.as_ptr = s.ptr ∧
      (MStr.new_owned (.string s cap) n).2 = n) ∧
    (∀ (s : StrRef) (n : Nat), s.data.length < TAG → s.ptr < n →
      (MStr.new_owned (.slice s) n).1.is_owned = true ∧
      (MStr.new_owned (.slice s) n).1.as_str.data = s.data ∧
      (MStr.new_owned (.slice s) n).1.as_ptr = n ∧
      (MStr.new_owned (.slice s) n).1.as_ptr ≠ s.ptr ∧
      (MStr.new_owned (.slice s) n).2 = n + 1) := by
  refine ⟨fun b n => ⟨_new_true_is_owned _ _ _, rfl, rfl⟩,
    fun s cap n hc => ?_, fun s n hl hp => ?_⟩
  · rw [new_owned_string_exact n hc]
    exact ⟨_new_true_is_owned _ _ _, rfl, rfl⟩
  · rw [new_owned_slice]
    refine ⟨_new_true_is_owned _ _ _, ?_, rfl, ?_, rfl⟩
    · rw [_new_as_str n true s.data hl]
    · show n ≠ s.ptr
      omega

theorem C2_new_owned_witness :
    ((MStr.new_owned (.boxed ⟨7, [97]⟩) 10).1.is_owned = true ∧
     (MStr.new_owned (.boxed ⟨7, [97]⟩) 10).1.as_ptr = 7 ∧
     (MStr.new_owned (.boxed ⟨7, [97]⟩) 10).2 = 10) ∧
    ((MStr.new_owned (.string ⟨8, [98, 99]⟩ 2) 10).1.is_owned = true ∧
     (MStr.new_owned (.string ⟨8, [98, 99]⟩ 2) 10).1.as_ptr = 8 ∧
     (MStr.new_owned (.string ⟨8, [98, 99]⟩ 2) 10).2 = 10) ∧
    ((MStr.new_owned (.slice ⟨3, [100]⟩) 10).1.is_owned = true ∧
     (MStr.new_owned (.slice ⟨3, [100]⟩) 10).1.as_str.data = [100] ∧
     (MStr.new_owned (.slice ⟨3, [100]⟩) 10).1.as_ptr = 10 ∧
     (MStr.new_owned (.slice ⟨3, [100]⟩) 10).1.as_ptr ≠ 3 ∧
     (MStr.new_owned (.slice ⟨3, [100]⟩) 10).2 = 11) :=
  ⟨C2_new_owned.1 ⟨7, [97]⟩ 10,
   C2_new_owned.2.1 ⟨8, [98, 99]⟩ 2 10 (by decide),
   C2_new_owned.2.2 ⟨3, [100]⟩ 10 (by decide) (by decide)⟩

/-- C3: for every `MStr` value — in particular every one produced by
`new_borrowed`, `new_owned`, `new_cow`, `default` or `clone` — exactly one
of `is_owned()` and `is_borrowed()` holds (there is no third state), the
choice is fully determined by the top bit of the packed length word, and
`len()` is exactly the packed word with the tag bit masked out. -/
theorem C3_tag_invariant (m : MStr) :
    m.is_owned = !m.is_borrowed ∧
    m.is_owned = m.plen.testBit (WORD - 1) ∧
    m.len = m.plen &&& MASK :=
  ⟨is_owned_eq_not_is_borrowed m, is_owned_eq_testBit m, rfl⟩

/-- C9: every successfully deserialized `MStr` is built by the visitor
through `new_owned` — both `visit_str` and `visit_string` call it — so the
result reports `is_owned()` (and never `is_borrowed()`), regardless of
whether the decoder's buffer would have permitted a borrow. -/
theorem C9_deserialize_owned (d : DecodedStr) (n : Nat) :
    (MStr.deserialize d n).1.is_owned = true ∧
    (MStr.deserialize d n).1.is_borrowed = false := by
  cases d <;> exact ⟨_new_true_is_owned _ _ _, _new_true_is_borrowed _ _ _⟩

/-- C4: equality, hashing and debug/display formatting are functions of the
logical content `as_str()` alone: any two instances with byte-identical
content — whatever their ownership tags and addresses — compare equal,
hash identically under every hasher, and render identically under every
debug/display renderer. -/
theorem C4_content_only (x y : MStr) (hf : Bytes → Nat)
    (fd fs : Bytes → List Nat) (h : x.as_str.data = y.as_str.data) :
    MStr.eq x y = true ∧
    MStr.hashWith hf x = MStr.hashWith hf y ∧
    MStr.debug_fmt fd x = MStr.debug_fmt fd y ∧
    MStr.display_fmt fs x = MStr.display_fmt fs y := by
  refine ⟨?_, ?_, ?_, ?_⟩ <;>
    simp [MStr.eq, MStr.hashWith, MStr.debug_fmt, MStr.display_fmt, h]

theorem C4_content_only_witness :
    MStr.eq (MStr.new_borrowed ⟨5, [97, 98]⟩)
        (MStr.new_owned (.slice ⟨5, [97, 98]⟩) 9).1 = true ∧
    MStr.hashWith List.length (MStr.new_borrowed ⟨5, [97, 98]⟩)
      = MStr.hashWith List.length (MStr.new_owned (.slice ⟨5, [97, 98]⟩) 9).1 ∧
    MStr.debug_fmt id (MStr.new_borrowed ⟨5, [97, 98]⟩)
      = MStr.debug_fmt id (MStr.new_owned (.slice ⟨5, [97, 98]⟩) 9).1 ∧
    MStr.display_fmt id (MStr.new_borrowed ⟨5, [97, 98]⟩)
      = MStr.display_fmt id (MStr.new_owned (.slice ⟨5, [97, 98]⟩) 9).1 :=
  C4_content_only (MStr.new_borrowed ⟨5, [97, 98]⟩)
    (MStr.new_owned (.slice ⟨5, [97, 98]⟩) 9).1 List.length id id (by decide)

/-- C5: the ordering of instances is the total lexicographic byte order on
their content: `cmp` equals the byte-lexicographic comparison of the two
contents, it is antisymmetric under swapping the arguments and transitive,
and it returns `Equal` exactly when `==` holds; moreover the cross-type
comparisons against `str`, `String` and `Box<str>` agree with the same-type
comparison whenever the compared contents coincide. -/
theorem C5_ordering (x y z : MStr) (s : StrRef) (cap : Nat)
    (hy : y.as_str.data = s.data) :
    (x.cmp y = cmpBytes x.as_str.data y.as_str.data) ∧
    (y.cmp x = (x.cmp y).swap) ∧
    (x.cmp y = .lt → y.cmp z = .lt → x.cmp z = .lt) ∧
    (x.cmp y = .eq ↔ MStr.eq x y = true) ∧
    (x.pcmp y = some (x.cmp y)) ∧
    (x.pcmp_str s = x.pcmp y) ∧
    (str_pcmp_mstr s x = y.pcmp x) ∧
    (MStr.eq_str x s = MStr.eq x y) ∧
    (str_eq_mstr s x = MStr.eq y x) ∧
    (MStr.eq_string x s cap = MStr.eq x y) ∧
    (MStr.eq_boxed x s = MStr.eq x y) := by
  refine ⟨rfl, cmpBytes_swap _ _, fun h1 h2 => cmpBytes_trans h1 h2, ?_, rfl,
    ?_, ?_, ?_, ?_, ?_, ?_⟩
  · rw [MStr.cmp, cmpBytes_eq_iff]
    simp [MStr.eq]
  · simp [MStr.pcmp_str, MStr.pcmp, MStr.cmp, hy]
  · simp [str_pcmp_mstr, MStr.pcmp, MStr.cmp, hy]
  · simp [MStr.eq_str, MStr.eq, hy]
  · simp [str_eq_mstr, MStr.eq, hy]
  · simp [MStr.eq_string, MStr.eq, hy]
  · simp [MStr.eq_boxed, MStr.eq, hy]

theorem C5_ordering_witness :
    ((MStr.new_borrowed ⟨1, [97]⟩).cmp (MStr.new_borrowed ⟨2, [98]⟩)
       = cmpBytes [97] [98]) ∧
    ((MStr.new_borrowed ⟨2, [98]⟩).cmp (MStr.new_borrowed ⟨1, [97]⟩)
       = ((MStr.new_borrowed ⟨1, [97]⟩).cmp (MStr.new_borrowed ⟨2, [98]⟩)).swap) ∧
    ((MStr.new_borrowed ⟨1, [97]⟩).cmp (MStr.new_borrowed ⟨2, [98]⟩) = .lt →
     (MStr.new_borrowed ⟨2, [98]⟩).cmp (MStr.new_borrowed ⟨3, [99]⟩) = .lt →
     (MStr.new_borrowed ⟨1, [97]⟩).cmp (MStr.new_borrowed ⟨3, [99]⟩) = .lt) ∧
    ((MStr.new_borrowed ⟨1, [97]⟩).cmp (MStr.new_borrowed ⟨2, [98]⟩) = .eq ↔
     MStr.eq (MStr.new_borrowed ⟨1, [97]⟩) (MStr.new_borrowed ⟨2, [98]⟩) = true) ∧
    ((MStr.new_borrowed ⟨1, [97]⟩).pcmp (MStr.new_borrowed ⟨2, [98]⟩)
       = some ((MStr.new_borrowed ⟨1, [97]⟩).cmp (MStr.new_borrowed ⟨2, [98]⟩))) ∧
    ((MStr.new_borrowed ⟨1, [97]⟩).pcmp_str ⟨6, [98]⟩
       = (MStr.new_borrowed ⟨1, [97]⟩).pcmp (MStr.new_borrowed ⟨2, [98]⟩)) ∧
    (str_pcmp_mstr ⟨6, [98]⟩ (MStr.new_borrowed ⟨1, [97]⟩)
       = (MStr.new_borrowed ⟨2, [98]⟩).pcmp (MStr.new_borrowed ⟨1, [97]⟩)) ∧
    (MStr.eq_str (MStr.new_borrowed ⟨1, [97]⟩) ⟨6, [98]⟩
       = MStr.eq (MStr.new_borrowed ⟨1, [97]⟩) (MStr.new_borrowed ⟨2, [98]⟩)) ∧
    (str_eq_mstr ⟨6, [98]⟩ (MStr.new_borrowed ⟨1, [97]⟩)
       = MStr.eq (MStr.new_borrowed ⟨2, [98]⟩) (MStr.new_borrowed ⟨1, [97]⟩)) ∧
    (MStr.eq_string (MStr.new_borrowed ⟨1, [97]⟩) ⟨6, [98]⟩ 1
       = MStr.eq (MStr.new_borrowed ⟨1, [97]⟩) (MStr.new_borrowed ⟨2, [98]⟩)) ∧
    (MStr.eq_boxed (MStr.new_borrowed ⟨1, [97]⟩) ⟨6, [98]⟩
       = MStr.eq (MStr.new_borrowed ⟨1, [97]⟩) (MStr.new_borrowed ⟨2, [98]⟩)) :=
  C5_ordering (MStr.new_borrowed ⟨1, [97]⟩) (MStr.new_borrowed ⟨2, [98]⟩)
    (MStr.new_borrowed ⟨3, [99]⟩) ⟨6, [98]⟩ 1 (by decide)

/-- C6: for every well-formed instance of either tag, converting it away with
`into_cow` and rebuilding with `new_cow` reproduces the same `is_owned()`
state, the same content and the same address, without touching the
allocator: the round trip is an identity on ownership, content and address. -/
theorem C6_cow_roundtrip (m : MStr) (n : Nat) (hwf : m.WF) :
    (MStr.new_cow m.into_cow n).1.is_owned = m.is_owned ∧
    (MStr.new_cow m.into_cow n).1.as_str = m.as_str ∧
    (MStr.new_cow m.into_cow n).1.as_ptr = m.as_ptr ∧
    (MStr.new_cow m.into_cow n).2 = n := by
  have hmlen : m.mem.length < TAG := hwf.1
  have has : m.as_str = ⟨m.ptr, m.mem⟩ := as_str_of_WF hwf
  have hlen : m.len = m.mem.length := len_of_WF hwf
  by_cases h : m.is_owned = true
  · have hcow : m.into_cow = .owned m.as_str m.len := by
      simp [MStr.into_cow, h]
    have hnc : MStr.new_cow m.into_cow n
        = (MStr._new m.ptr m.mem.length true m.mem, n) := by
      rw [hcow]
      show MStr.new_owned (.string m.as_str m.len) n = _
      rw [new_owned_string_exact n (by rw [has]; exact hlen), has]
    have h1 : (MStr.new_cow m.into_cow n).1
        = MStr._new m.ptr m.mem.length true m.mem := by rw [hnc]
    have h2 : (MStr.new_cow m.into_cow n).2 = n := by rw [hnc]
    rw [h1, h2]
    refine ⟨?_, ?_, rfl, rfl⟩
    · rw [_new_true_is_owned, h]
    · rw [_new_as_str m.ptr true m.mem hmlen, has]
  · have h' : m.is_owned = false := by
      cases hh : m.is_owned
      · rfl
      · exact absurd hh h
    have hcow : m.into_cow = .borrowed m.as_str := by
      simp [MStr.into_cow, h']
    have hnc : MStr.new_cow m.into_cow n
        = (MStr._new m.ptr m.mem.length false m.mem, n) := by
      rw [hcow]
      show (MStr.new_borrowed m.as_str, n) = _
      rw [has]
      rfl
    have h1 : (MStr.new_cow m.into_cow n).1
        = MStr._new m.ptr m.mem.length false m.mem := by rw [hnc]
    have h2 : (MStr.new_cow m.into_cow n).2 = n := by rw [hnc]
    rw [h1, h2]
    refine ⟨?_, ?_, rfl, rfl⟩
    · rw [_new_false_is_owned _ _ hmlen, h']
    · rw [_new_as_str m.ptr false m.mem hmlen, has]

theorem C6_cow_roundtrip_witness :
    ((MStr.new_cow (MStr._new 4 2 true [10, 20]).into_cow 9).1.is_owned
       = (MStr._new 4 2 true [10, 20]).is_owned ∧
     (MStr.new_cow (MStr._new 4 2 true [10, 20]).into_cow 9).1.as_str
       = (MStr._new 4 2 true [10, 20]).as_str ∧
     (MStr.new_cow (MStr._new 4 2 true [10, 20]).into_cow 9).1.as_ptr
       = (MStr._new 4 2 true [10, 20]).as_ptr ∧
     (MStr.new_cow (MStr._new 4 2 true [10, 20]).into_cow 9).2 = 9) ∧
    ((MStr.new_cow (MStr._new 3 1 false [7]).into_cow 9).1.is_owned
       = (MStr._new 3 1 false [7]).is_owned ∧
     (MStr.new_cow (MStr._new 3 1 false [7]).into_cow 9).1.as_str
       = (MStr._new 3 1 false [7]).as_str ∧
     (MStr.new_cow (MStr._new 3 1 false [7]).into_cow 9).1.as_ptr
       = (MStr._new 3 1 false [7]).as_ptr ∧
     (MStr.new_cow (MStr._new 3 1 false [7]).into_cow 9).2 = 9) :=
  ⟨C6_cow_roundtrip (MStr._new 4 2 true [10, 20]) 9 ⟨by decide, by decide⟩,
   C6_cow_roundtrip (MStr._new 3 1 false [7]) 9 ⟨by decide, by decide⟩⟩

/-- C7: `into_string` on an owned instance returns the very buffer the
instance held — same content and same start address, allocator untouched (the
allocation is reused and the destructor suppressed by the consuming
conversion); on a borrowed instance it performs one fresh allocation, so the
returned string has the same content at a new address distinct from the
instance's. -/
theorem C7_into_string (m : MStr) (n : Nat) (hp : m.ptr < n) :
    (m.is_owned = true →
      MStr.into_string m n = (m.as_str, n) ∧
      (MStr.into_string m n).1.ptr = m.as_ptr) ∧
    (m.is_borrowed = true →
      (MStr.into_string m n).1.data = m.as_str.data ∧
      (MStr.into_string m n).1.ptr = n ∧
      (MStr.into_string m n).1.ptr ≠ m.as_ptr ∧
      (MStr.into_string m n).2 = n + 1) := by
  constructor
  · intro h
    have hcow : m.into_cow = .owned m.as_str m.len := by
      simp [MStr.into_cow, h]
    have hi : MStr.into_string m n = (m.as_str, n) := by
      rw [MStr.into_string, hcow]
      rfl
    rw [hi]
    exact ⟨rfl, rfl⟩
  · intro h
    have h' : m.is_owned = false := by
      rw [is_owned_eq_not_is_borrowed, h]
      rfl
    have hcow : m.into_cow = .borrowed m.as_str := by
      simp [MStr.into_cow, h']
    have hi : MStr.into_string m n = (⟨n, m.as_str.data⟩, n + 1) := by
      rw [MStr.into_string, hcow]
      rfl
    rw [hi]
    refine ⟨rfl, rfl, ?_, rfl⟩
    show n ≠ m.ptr
    omega

theorem C7_into_string_witness :
    (MStr.into_string (MStr._new 4 2 true [10, 20]) 9
       = ((MStr._new 4 2 true [10, 20]).as_str, 9) ∧
     (MStr.into_string (MStr._new 4 2 true [10, 20]) 9).1.ptr
       = (MStr._new 4 2 true [10, 20]).as_ptr) ∧
    ((MStr.into_string (MStr._new 3 1 false [7]) 9).1.data
       = (MStr._new 3 1 false [7]).as_str.data ∧
     (MStr.into_string (MStr._new 3 1 false [7]) 9).1.ptr = 9 ∧
     (MStr.into_string (MStr._new 3 1 false [7]) 9).1.ptr
       ≠ (MStr._new 3 1 false [7]).as_ptr ∧
     (MStr.into_string (MStr._new 3 1 false [7]) 9).2 = 9 + 1) :=
  ⟨(C7_into_string (MStr._new 4 2 true [10, 20]) 9 (by decide)).1 (by decide),
   (C7_into_string (MStr._new 3 1 false [7]) 9 (by decide)).2 (by decide)⟩

/-- C8: `clone` of a borrowed instance is again borrowed over the same
address and length — the view is pointer-identical and the allocator is
untouched, so nothing is allocated; `clone` of an owned instance is again
owned with byte-identical content placed in one fresh allocation at a new
address, so the original and the clone never share an allocation. -/
theorem C8_clone (m : MStr) (n : Nat) (hwf : m.WF) (hp : m.ptr < n) :
    (m.is_borrowed = true →
      (MStr.clone m n).1.is_borrowed = true ∧
      (MStr.clone m n).1.as_ptr = m.as_ptr ∧
      (MStr.clone m n).1.as_str = m.as_str ∧
      (MStr.clone m n).2 = n) ∧
    (m.is_owned = true →
      (MStr.clone m n).1.is_owned = true ∧
      (MStr.clone m n).1.as_str.data = m.as_str.data ∧
      (MStr.clone m n).1.as_ptr = n ∧
      (MStr.clone m n).1.as_ptr ≠ m.as_ptr ∧
      (MStr.clone m n).2 = n + 1) := by
  have hmlen : m.mem.length < TAG := hwf.1
  have has : m.as_str = ⟨m.ptr, m.mem⟩ := as_str_of_WF hwf
  have hlen : m.len = m.mem.length := len_of_WF hwf
  constructor
  · intro h
    have hc : MStr.clone m n = (MStr._new m.ptr m.mem.length false m.mem, n) := by
      rw [MStr.clone, if_pos h, hlen]
      rfl
    have h1 : (MStr.clone m n).1 = MStr._new m.ptr m.mem.length false m.mem := by
      rw [hc]
    have h2 : (MStr.clone m n).2 = n := by rw [hc]
    rw [h1, h2]
    refine ⟨_new_false_is_borrowed _ _ hmlen, rfl, ?_, rfl⟩
    rw [_new_as_str m.ptr false m.mem hmlen, has]
  · intro h
    have h' : m.is_borrowed = false := by
      have hob := is_owned_eq_not_is_borrowed m
      rw [h] at hob
      cases hh : m.is_borrowed
      · rfl
      · rw [hh] at hob
        cases hob
    have hc : MStr.clone m n = (MStr._new n m.mem.length true m.mem, n + 1) := by
      rw [MStr.clone, if_neg (by simp [h']), new_owned_slice, has]
    have h1 : (MStr.clone m n).1 = MStr._new n m.mem.length true m.mem := by
      rw [hc]
    have h2 : (MStr.clone m n).2 = n + 1 := by rw [hc]
    rw [h1, h2]
    refine ⟨_new_true_is_owned _ _ _, ?_, rfl, ?_, rfl⟩
    · rw [_new_as_str n true m.mem hmlen, has]
    · show n ≠ m.ptr
      omega

theorem C8_clone_witness :
    ((MStr.clone (MStr._new 3 1 false [7]) 9).1.is_borrowed = true ∧
     (MStr.clone (MStr._new 3 1 false [7]) 9).1.as_ptr
       = (MStr._new 3 1 false [7]).as_ptr ∧
     (MStr.clone (MStr._new 3 1 false [7]) 9).1.as_str
       = (MStr._new 3 1 false [7]).as_str ∧
     (MStr.clone (MStr._new 3 1 false [7]) 9).2 = 9) ∧
    ((MStr.clone (MStr._new 4 2 true [10, 20]) 9).1.is_owned = true ∧
     (MStr.clone (MStr._new 4 2 true [10, 20]) 9).1.as_str.data
       = (MStr._new 4 2 true [10, 20]).as_str.data ∧
     (MStr.clone (MStr._new 4 2 true [10, 20]) 9).1.as_ptr = 9 ∧
     (MStr.clone (MStr._new 4 2 true [10, 20]) 9).1.as_ptr
       ≠ (MStr._new 4 2 true [10, 20]).as_ptr ∧
     (MStr.clone (MStr._new 4 2 true [10, 20]) 9).2 = 9 + 1) :=
  ⟨(C8_clone (MStr._new 3 1 false [7]) 9 ⟨by decide, by decide⟩ (by decide)).1
     (by decide),
   (C8_clone (MStr._new 4 2 true [10, 20]) 9 ⟨by decide, by decide⟩ (by decide)).2
     (by decide)⟩

/-- C10: the empty string is an ordinary owned value at the public
interface: `new_owned` of any empty source is owned, with `len() = 0`,
`is_empty()` true and empty content, and converting it back with `into_cow`
or `into_string` yields the empty owned string. -/
theorem C10_empty_owned (src : BoxSource) (n k : Nat) (h : src.data = []) :
    (MStr.new_owned src n).1.is_owned = true ∧
    (MStr.new_owned src n).1.len = 0 ∧
    (MStr.new_owned src n).1.is_empty = true ∧
    (MStr.new_owned src n).1.as_str.data = [] ∧
    (MStr.new_owned src n).1.into_cow
      = Cow.owned ((MStr.new_owned src n).1.as_str) 0 ∧
    (MStr.into_string (MStr.new_owned src n).1 k).1.data = [] := by
  have hd : (src.into n).1.data = [] := by rw [into_data, h]
  have hm : (MStr.new_owned src n).1 = MStr._new (src.into n).1.ptr 0 true [] := by
    show MStr._new (src.into n).1.ptr (src.into n).1.data.length true
        (src.into n).1.data = _
    rw [hd]
    rfl
  rw [hm]
  have hlen0 : (MStr._new (src.into n).1.ptr 0 true []).len = 0 :=
    _new_len _ _ _ TAG_pos
  have hstr : (MStr._new (src.into n).1.ptr 0 true []).as_str.data = [] := by
    simp [MStr.as_str, MStr._new]
  have hio : (MStr._new (src.into n).1.ptr 0 true []).into_cow
      = Cow.owned ((MStr._new (src.into n).1.ptr 0 true []).as_str) 0 := by
    rw [MStr.into_cow, if_pos (_new_true_is_owned _ _ _), hlen0]
  refine ⟨_new_true_is_owned _ _ _, hlen0, ?_, hstr, hio, ?_⟩
  · simp only [MStr.is_empty, hlen0]
    rfl
  · rw [MStr.into_string, hio]
    exact hstr

theorem C10_empty_owned_witness :
    (MStr.new_owned (.slice ⟨3, []⟩) 9).1.is_owned = true ∧
    (MStr.new_owned (.slice ⟨3, []⟩) 9).1.len = 0 ∧
    (MStr.new_owned (.slice ⟨3, []⟩) 9).1.is_empty = true ∧
    (MStr.new_owned (.slice ⟨3, []⟩) 9).1.as_str.data = [] ∧
    (MStr.new_owned (.slice ⟨3, []⟩) 9).1.into_cow
      = Cow.owned ((MStr.new_owned (.slice ⟨3, []⟩) 9).1.as_str) 0 ∧
    (MStr.into_string (MStr.new_owned (.slice ⟨3, []⟩) 9).1 12).1.data = [] :=
  C10_empty_owned (.slice ⟨3, []⟩) 9 12 (by decide)
